import Mathlib

/-!
Verification of the botpress NLU engine core
(src/modules/nlu/src/backend/engine.ts and
src/modules/nlu/src/backend/engine2/featurizer2.ts) against its
natural-language specification.

The TypeScript source is shallowly embedded: pure functions become Lean
functions, the stateful training/caching orchestrator becomes explicit
state passing over small state records, JavaScript numbers used as 32-bit
words in the MD5 digest become Nat with explicit masking, and fallible
code returns Option or Except.  External collaborators (the statistical
classifier, the sequence tagger, storage, the language identifier) are
passed in as function parameters, mirroring their narrow train/predict
contracts.
-/

/-! ## JavaScript values and JSON.stringify

`computeModelHash` (engine.ts lines 325-330) is
crypto.createHash('md5').update(JSON.stringify(intents)).digest('hex').
JavaScript objects keep their fields in insertion order and
JSON.stringify serializes fields in that order, so the embedding models a
JS value with ordered field lists. -/

/-- A JavaScript value as consumed by JSON.stringify.  Object fields are
an ordered list, since JS objects enumerate keys in insertion order and
JSON.stringify follows that order. -/
inductive JsValue where
  | null : JsValue
  | bool (b : Bool) : JsValue
  | num (n : Int) : JsValue
  | str (s : String) : JsValue
  | arr (xs : List JsValue) : JsValue
  | obj (fields : List (String × JsValue)) : JsValue

/-- JSON string quoting as performed by JSON.stringify (escaping of the
quote, backslash and common control characters). -/
def jsonQuote (s : String) : String :=
  "\"" ++ s.data.foldl (fun acc c =>
    acc ++ (if c = '"' then "\\\"" else if c = '\\' then "\\\\"
            else if c = '\n' then "\\n" else if c = '\t' then "\\t"
            else if c = '\r' then "\\r" else String.singleton c)) "" ++ "\""

mutual

/-- JSON.stringify on the embedded JS values: object fields are emitted
in their stored (insertion) order. -/
def jsonStringify : JsValue → String
  | .null => "null"
  | .bool true => "true"
  | .bool false => "false"
  | .num n => toString n
  | .str s => jsonQuote s
  | .arr xs => "[" ++ jsonStringifyList xs ++ "]"
  | .obj fs => "\x7b" ++ jsonStringifyFields fs ++ "\x7d"

/-- Comma-separated serialization of an array's elements. -/
def jsonStringifyList : List JsValue → String
  | [] => ""
  | [x] => jsonStringify x
  | x :: y :: rest => jsonStringify x ++ "," ++ jsonStringifyList (y :: rest)

/-- Comma-separated serialization of an object's fields, in order. -/
def jsonStringifyFields : List (String × JsValue) → String
  | [] => ""
  | [kv] => jsonQuote kv.1 ++ ":" ++ jsonStringify kv.2
  | kv :: kw :: rest =>
    jsonQuote kv.1 ++ ":" ++ jsonStringify kv.2 ++ "," ++ jsonStringifyFields (kw :: rest)

end

/-! ## MD5 (crypto.createHash('md5') ... digest('hex'))

A byte-level embedding of the MD5 digest, on Nat with explicit masking
to 32 bits, so that `computeModelHash` below is the actual function the
engine computes. -/

/-- 2^32 - 1, the 32-bit mask. -/
def mask32 : Nat := 4294967295

/-- 32-bit left rotation. -/
def rotl32 (x n : Nat) : Nat := ((x <<< n) ||| (x >>> (32 - n))) &&& mask32

/-- 32-bit bitwise complement (for x already reduced below 2^32). -/
def not32 (x : Nat) : Nat := mask32 - (x &&& mask32)

/-- The 64 MD5 round constants (floor(2^32 * abs(sin(i+1)))). -/
def md5K : List Nat :=
  [0xd76aa478, 0xe8c7b756, 0x242070db, 0xc1bdceee, 0xf57c0faf, 0x4787c62a, 0xa8304613, 0xfd469501,
   0x698098d8, 0x8b44f7af, 0xffff5bb1, 0x895cd7be, 0x6b901122, 0xfd987193, 0xa679438e, 0x49b40821,
   0xf61e2562, 0xc040b340, 0x265e5a51, 0xe9b6c7aa, 0xd62f105d, 0x02441453, 0xd8a1e681, 0xe7d3fbc8,
   0x21e1cde6, 0xc33707d6, 0xf4d50d87, 0x455a14ed, 0xa9e3e905, 0xfcefa3f8, 0x676f02d9, 0x8d2a4c8a,
   0xfffa3942, 0x8771f681, 0x6d9d6122, 0xfde5380c, 0xa4beea44, 0x4bdecfa9, 0xf6bb4b60, 0xbebfbc70,
   0x289b7ec6, 0xeaa127fa, 0xd4ef3085, 0x04881d05, 0xd9d4d039, 0xe6db99e5, 0x1fa27cf8, 0xc4ac5665,
   0xf4292244, 0x432aff97, 0xab9423a7, 0xfc93a039, 0x655b59c3, 0x8f0ccc92, 0xffeff47d, 0x85845dd1,
   0x6fa87e4f, 0xfe2ce6e0, 0xa3014314, 0x4e0811a1, 0xf7537e82, 0xbd3af235, 0x2ad7d2bb, 0xeb86d391]

/-- The per-round left-rotation amounts of MD5. -/
def md5S : List Nat :=
  [7, 12, 17, 22, 7, 12, 17, 22, 7, 12, 17, 22, 7, 12, 17, 22,
   5, 9, 14, 20, 5, 9, 14, 20, 5, 9, 14, 20, 5, 9, 14, 20,
   4, 11, 16, 23, 4, 11, 16, 23, 4, 11, 16, 23, 4, 11, 16, 23,
   6, 10, 15, 21, 6, 10, 15, 21, 6, 10, 15, 21, 6, 10, 15, 21]

/-- The four 32-bit running words of the MD5 state. -/
structure MD5State where
  a : Nat
  b : Nat
  c : Nat
  d : Nat
deriving DecidableEq, Repr

/-- One of the 64 MD5 rounds on a message block M (16 little-endian
32-bit words). -/
def md5Step (M : List Nat) (st : MD5State) (i : Nat) : MD5State :=
  let fg : Nat × Nat :=
    if i < 16 then ((st.b &&& st.c) ||| ((not32 st.b) &&& st.d), i)
    else if i < 32 then ((st.d &&& st.b) ||| ((not32 st.d) &&& st.c), (5 * i + 1) % 16)
    else if i < 48 then ((st.b ^^^ st.c) ^^^ st.d, (3 * i + 5) % 16)
    else (st.c ^^^ (st.b ||| (not32 st.d)), (7 * i) % 16)
  let f := (fg.1 + st.a + md5K.getD i 0 + M.getD fg.2 0) &&& mask32
  { a := st.d, b := (st.b + rotl32 f (md5S.getD i 0)) &&& mask32, c := st.b, d := st.c }

/-- Decode a 64-byte chunk into 16 little-endian 32-bit words. -/
def md5Words (chunk : List Nat) : List Nat :=
  (List.range 16).map fun j =>
    chunk.getD (4 * j) 0 + 256 * chunk.getD (4 * j + 1) 0 +
      65536 * chunk.getD (4 * j + 2) 0 + 16777216 * chunk.getD (4 * j + 3) 0

/-- Process one 64-byte chunk: 64 rounds, then add into the running state. -/
def md5Chunk (st : MD5State) (chunk : List Nat) : MD5State :=
  let r := (List.range 64).foldl (md5Step (md5Words chunk)) st
  { a := (st.a + r.a) &&& mask32, b := (st.b + r.b) &&& mask32,
    c := (st.c + r.c) &&& mask32, d := (st.d + r.d) &&& mask32 }

/-- The n low-order bytes of x, little-endian. -/
def leBytes (n x : Nat) : List Nat := (List.range n).map fun i => (x >>> (8 * i)) % 256

/-- MD5 padding: a 0x80 byte, zeros to 56 mod 64, then the 64-bit
little-endian bit length. -/
def md5Pad (msg : List Nat) : List Nat :=
  let len := msg.length
  let zeros := (120 - ((len + 1) % 64)) % 64
  msg ++ [0x80] ++ List.replicate zeros 0 ++ leBytes 8 ((8 * len) % (2 ^ 64))

/-- The MD5 initialization vector. -/
def md5Init : MD5State := { a := 0x67452301, b := 0xefcdab89, c := 0x98badcfe, d := 0x10325476 }

/-- Run MD5 over a byte sequence, producing the final state. -/
def md5Digest (msg : List Nat) : MD5State :=
  let padded := md5Pad msg
  (List.range (padded.length / 64)).foldl
    (fun st i => md5Chunk st ((padded.drop (64 * i)).take 64)) md5Init

/-- A lowercase hexadecimal digit. -/
def hexDigit (n : Nat) : Char := if n < 10 then Char.ofNat (48 + n) else Char.ofNat (87 + n)

/-- Two lowercase hex digits for one byte. -/
def byteToHex (b : Nat) : String := String.mk [hexDigit (b / 16), hexDigit (b % 16)]

/-- The lowercase-hex MD5 digest of a byte sequence (digest('hex')). -/
def md5Hex (msg : List Nat) : String :=
  ((leBytes 4 (md5Digest msg).a ++ leBytes 4 (md5Digest msg).b ++
    leBytes 4 (md5Digest msg).c ++ leBytes 4 (md5Digest msg).d).map byteToHex).foldl
    (fun s t => s ++ t) ""

/-- The bytes of an ASCII string (JSON.stringify output of the intent
definitions below is pure ASCII). -/
def asciiBytes (s : String) : List Nat := s.data.map Char.toNat

/-- engine.ts lines 325-330: computeModelHash(intents) is the hex MD5
digest of JSON.stringify(intents).  The argument is the list of intent
definitions exactly as the JS runtime holds them (ordered object
fields). -/
def computeModelHash (intents : List JsValue) : String :=
  md5Hex (asciiBytes (jsonStringify (JsValue.arr intents)))

/-! ## Canonical form up to object-key ordering

Used to state the spec's claim that the digest is independent of object
key ordering: two JS values with the same canonical form carry the same
semantic content and differ at most in field order. -/

/-- Insert a field into a key-sorted field list. -/
def insertFieldByKey (kv : String × JsValue) : List (String × JsValue) → List (String × JsValue)
  | [] => [kv]
  | x :: rest => if kv.1 < x.1 then kv :: x :: rest else x :: insertFieldByKey kv rest

/-- Sort an object's fields by key (insertion sort). -/
def sortFieldsByKey : List (String × JsValue) → List (String × JsValue)
  | [] => []
  | kv :: rest => insertFieldByKey kv (sortFieldsByKey rest)

mutual

/-- Canonical form of a JS value: every object's fields sorted by key,
recursively.  Two values are equal up to object-key ordering exactly
when their canonical forms coincide. -/
def canon : JsValue → JsValue
  | .null => .null
  | .bool b => .bool b
  | .num n => .num n
  | .str s => .str s
  | .arr xs => .arr (canonList xs)
  | .obj fs => .obj (sortFieldsByKey (canonFields fs))

/-- canon mapped over an array's elements. -/
def canonList : List JsValue → List JsValue
  | [] => []
  | x :: rest => canon x :: canonList rest

/-- canon mapped over an object's field values. -/
def canonFields : List (String × JsValue) → List (String × JsValue)
  | [] => []
  | kv :: rest => (kv.1, canon kv.2) :: canonFields rest

end

/-- A concrete intent definition, fields in one insertion order. -/
def exIntentA : JsValue :=
  .obj [("name", .str "hello"),
        ("utterances", .obj [("en", .arr [.str "hi there", .str "good morning"])]),
        ("slots", .arr []),
        ("contexts", .arr [.str "global"])]

/-- The same intent definition with its fields in another insertion
order (identical keys and values). -/
def exIntentB : JsValue :=
  .obj [("contexts", .arr [.str "global"]),
        ("name", .str "hello"),
        ("utterances", .obj [("en", .arr [.str "hi there", .str "good morning"])]),
        ("slots", .arr [])]

/-- exIntentA with one utterance changed. -/
def exIntentC : JsValue :=
  .obj [("name", .str "hello"),
        ("utterances", .obj [("en", .arr [.str "hi there", .str "good evening"])]),
        ("slots", .arr []),
        ("contexts", .arr [.str "global"])]

/-! ## Training/caching orchestrator: concurrency coalescing (engine.ts
lines 129-175)

trainOrLoad guards itself with two booleans, _isSyncing and
_isSyncingTwice (lines 67-68).  A call that finds _isSyncing set records
_isSyncingTwice and returns; a completing cycle clears _isSyncing and,
if _isSyncingTwice was recorded, clears it and immediately re-invokes
trainOrLoad.  The machine below embeds exactly that protocol; the body
of a sync cycle (load/train) is abstracted, and `cycles` counts how many
cycle bodies have been started. -/

/-- The orchestrator's concurrency flags plus a count of sync cycles
started (the count is ghost state for the statement, not part of the
engine). -/
structure SyncFlags where
  isSyncing : Bool
  isSyncingTwice : Bool
  cycles : Nat
deriving DecidableEq, Repr

/-- The entry of trainOrLoad (engine.ts lines 130-136): if a sync is in
flight, record _isSyncingTwice and return; otherwise set _isSyncing and
start a cycle body. -/
def trainOrLoadCall (s : SyncFlags) : SyncFlags :=
  if s.isSyncing then { s with isSyncingTwice := true }
  else { s with isSyncing := true, cycles := s.cycles + 1 }

/-- The finally-block of trainOrLoad (engine.ts lines 166-172), run when
the in-flight cycle body finishes: clear _isSyncing; if _isSyncingTwice
was recorded, clear it and re-invoke trainOrLoad. -/
def syncComplete (s : SyncFlags) : SyncFlags :=
  let s1 := { s with isSyncing := false }
  if s1.isSyncingTwice then trainOrLoadCall { s1 with isSyncingTwice := false }
  else s1

/-- n further trainOrLoad invocations arriving one after another. -/
def iterateCalls : Nat → SyncFlags → SyncFlags
  | 0, s => s
  | n + 1, s => iterateCalls n (trainOrLoadCall s)

/-- The state with one sync cycle in flight and nothing recorded. -/
def inFlightState : SyncFlags := { isSyncing := true, isSyncingTwice := false, cycles := 1 }

/-! ## trainOrLoad's return value (engine.ts lines 129-175)

A single-invocation functional embedding of trainOrLoad.  The cycle body
(getIntents, computeModelHash, load/train) is abstracted into the hash it
computes and a success flag; the hash-typed fields mirror
_currentModelHash (undefined before the first successful sync, hence
Option).  syncOk2 is the outcome of the coalesced follow-up cycle that
the finally-block fires when _isSyncingTwice was already recorded at
entry. -/

/-- The orchestrator state a trainOrLoad invocation reads and writes:
_isSyncing, _isSyncingTwice, _currentModelHash, _preloaded. -/
structure EngineState where
  isSyncing : Bool
  isSyncingTwice : Bool
  currentModelHash : Option String
  preloaded : Bool
deriving DecidableEq, Repr

/-- One trainOrLoad invocation (engine.ts lines 129-175).  Returns the
JS return value (none models returning undefined) and the new state.
Line 132 is a bare return (undefined) when a sync is in flight.  On a
successful cycle, lines 162-163 set _currentModelHash and _preloaded;
on a failed cycle the catch at line 164 swallows the error.  Line 174
returns _currentModelHash as it stands after the cycle.  If
_isSyncingTwice was recorded, the finally-block at line 170 returns the
result of a fresh trainOrLoad invocation instead. -/
def trainOrLoadRun (st : EngineState) (hash : String) (syncOk syncOk2 : Bool) :
    Option String × EngineState :=
  if st.isSyncing then
    (none, { st with isSyncingTwice := true })
  else
    let st1 := { st with isSyncing := true }
    let st2 := if syncOk then { st1 with currentModelHash := some hash, preloaded := true } else st1
    let st3 := { st2 with isSyncing := false }
    if st3.isSyncingTwice then
      let st4 := { st3 with isSyncingTwice := false }
      let st5 := { st4 with isSyncing := true }
      let st6 :=
        if syncOk2 then { st5 with currentModelHash := some hash, preloaded := true } else st5
      let st7 := { st6 with isSyncing := false }
      (st7.currentModelHash, st7)
    else
      (st3.currentModelHash, st3)

/-- A state with a sync in flight and a last-known-good model hash. -/
def busyState : EngineState :=
  { isSyncing := true, isSyncingTwice := false, currentModelHash := some "a1b2", preloaded := true }

/-- The engine state before any sync ever ran. -/
def idleState : EngineState :=
  { isSyncing := false, isSyncingTwice := false, currentModelHash := none, preloaded := false }

/-! ## The modelsExists check inside trainOrLoad (engine.ts lines 141-143)

The source computes
  this.languages.map(async lang => await this.storage.modelExists(modelHash, lang)).every(identity).
Array.prototype.map with an async callback yields an array of Promise
objects, and every(identity) tests the truthiness of each element.  A
Promise object is an object and therefore truthy, whatever Boolean it
will resolve to. -/

/-- A pending JavaScript Promise wrapping the value it will resolve to. -/
structure JsPromise (α : Type) where
  val : α
deriving DecidableEq, Repr

/-- Truthiness of a JS Promise object: an object is always truthy,
regardless of its eventual resolved value. -/
def jsPromiseTruthy {α : Type} (_pr : JsPromise α) : Bool := true

/-- engine.ts lines 141-143: map each language to the (un-awaited)
promise of storage.modelExists, then test every element for
truthiness. -/
def modelsExistsCheck (languages : List String) (modelExists : String → Bool) : Bool :=
  (languages.map fun lang => JsPromise.mk (modelExists lang)).all fun pr => jsPromiseTruthy pr

/-- What one sync cycle body does with loading and training
(observable trace of engine.ts lines 139-160). -/
structure SyncCycleTrace where
  loadAttempted : Bool
  trained : Bool
  reloaded : Bool
deriving DecidableEq, Repr

/-- engine.ts lines 139-160: loading is attempted when forceRetrain is
false and the modelsExists check passes; if the attempt fails (loadOk
false) or was never made, the cycle trains and then reloads. -/
def trainOrLoadCycleTrace (languages : List String) (forceRetrain : Bool)
    (modelExists : String → Bool) (loadOk : Bool) : SyncCycleTrace :=
  let modelsExists := modelsExistsCheck languages modelExists
  let loaded := !forceRetrain && modelsExists && loadOk
  { loadAttempted := !forceRetrain && modelsExists, trained := !loaded, reloaded := !loaded }

/-! ## Extraction pipeline data model

The NLUStructure record threaded through the six pipeline stages
(engine.ts lines 430-437), with the fields those stages read and
write.  Slot and entity internals are opaque to the claims under
verification, so their records carry only identifying fields. -/

/-- An extracted entity (only its type is inspected by the embedded
stages). -/
structure Entity where
  name : String
  type : String
deriving DecidableEq, Repr

/-- An extracted slot (opaque to the embedded stages). -/
structure Slot where
  name : String
deriving DecidableEq, Repr

/-- A ranked intent prediction: name, owning context, confidence. -/
structure IntentPred where
  name : String
  context : String
  confidence : Rat
deriving DecidableEq, Repr

/-- The reserved fallback intent. -/
def noneIntent : IntentPred := { name := "none", context := "global", confidence := 0 }

/-- The working record threaded through the pipeline stages: raw text,
detected and effective language, lowercased and sanitized text, tokens,
entities, ranked intents, selected intent, slots, requested contexts. -/
structure NLUStructure where
  rawText : String
  lowerText : String
  sanitizedText : String
  detectedLanguage : Option String
  language : String
  includedContexts : List String
  tokens : List String
  entities : List Entity
  intents : List IntentPred
  intent : IntentPred
  slots : List Slot
deriving DecidableEq, Repr

/-! ## The extract wrapper (engine.ts lines 177-195)

extract initializes res to an object holding only errored=true, runs the
pipeline under the bluebird-retry policy inside try/catch, sets
errored=false only on success, and in the finally-block stamps
res.ms = Date.now() - t0 and returns res.  The return inside finally
swallows any exception, so the caller always receives the record.  The
pipeline run is abstracted as a function from the attempt number to that
attempt's outcome; wall-clock readings t0 (at entry) and t1 (in the
finally-block) are passed explicitly. -/

/-- The bounded retry policy of engine.ts lines 60-65. -/
structure RetryPolicy where
  interval : Nat
  max_interval : Nat
  timeout : Nat
  max_tries : Nat
deriving DecidableEq, Repr

/-- engine.ts lines 60-65: interval 100, max_interval 500, timeout 5000,
max_tries 3. -/
def retryPolicy : RetryPolicy :=
  { interval := 100, max_interval := 500, timeout := 5000, max_tries := 3 }

/-- bluebird-retry: run the attempt; on failure, retry until max_tries
attempts have been made, then report the last error.  (Backoff and the
overall timeout are real-time behavior and do not affect which attempt
outcomes are observed.) -/
def retryRun (attempt : Nat → Except String NLUStructure) (i : Nat) :
    Nat → Except String NLUStructure
  | 0 => Except.error "max tries reached"
  | fuel + 1 =>
    match attempt i with
    | Except.ok ds => Except.ok ds
    | Except.error e => if fuel = 0 then Except.error e else retryRun attempt (i + 1) fuel

/-- The result record extract returns: the errored flag, the ms timing
stamped in the finally-block (none models the field being absent), and
the pipeline's populated structure when a run succeeded. -/
structure EventUnderstanding where
  errored : Bool
  ms : Option Int
  data : Option NLUStructure
deriving DecidableEq, Repr

/-- engine.ts lines 177-195.  res starts as the bare record with
errored=true; a successful retry replaces it with the pipeline result
and errored=false; a failure leaves the bare record; the finally-block
stamps ms = t1 - t0 and returns res unconditionally. -/
def extract (attempt : Nat → Except String NLUStructure) (t0 t1 : Nat) : EventUnderstanding :=
  let res : EventUnderstanding := { errored := true, ms := none, data := none }
  let res : EventUnderstanding :=
    match retryRun attempt 0 retryPolicy.max_tries with
    | Except.ok ds => { errored := false, ms := none, data := some ds }
    | Except.error _ => res
  { res with ms := some ((t1 : Int) - (t0 : Int)) }

/-! ## Language detection stage (engine.ts lines 417-428) -/

/-- engine.ts lines 417-428: record the identifier's answer in
detectedLanguage, then substitute the configured default when the answer
is absent (undefined or empty, both falsy in JS), the sentinel "n/a", or
not among the configured languages. -/
def detectLangStage (languages : List String) (defaultLanguage : String)
    (identify : String → Option String) (ds : NLUStructure) : NLUStructure :=
  let lang := identify ds.rawText
  let ds1 := { ds with detectedLanguage := lang }
  match lang with
  | none => { ds1 with language := defaultLanguage }
  | some l =>
    if l = "" ∨ l = "n/a" ∨ ¬ languages.contains l then
      { ds1 with language := defaultLanguage }
    else
      { ds1 with language := l }

/-! ## Intent classification stage (engine.ts lines 353-384)

The ExactMatcher class lives in pipelines/intents/exact_matcher.ts,
which is not part of the sources under verification; its lookup is
modelled from the spec below.  The statistical classifier and the
mean/std tie-break selection are external collaborators here and are
passed in as functions. -/

/-- One training example as the exact-match index stores it: the owning
intent, that intent's contexts, and the sanitized utterance text. -/
structure TrainingExample where
  intentName : String
  contexts : List String
  sanitizedUtterance : String
deriving DecidableEq, Repr

/-- Modelled from the spec: the Exact Matcher (pipelines/intents/
exact_matcher.ts, absent from the sources) "builds a lookup from
sanitized training utterances to intent"; its exactMatch "attempt[s]
exact match of the sanitized text against a precomputed exact-match
index for the detected language, constrained to the requested contexts;
if found, short-circuit[s] with that intent at maximum confidence". -/
def exactMatch (trainingSet : List TrainingExample) (sanitizedText : String)
    (includedContexts : List String) : Option IntentPred :=
  (trainingSet.find? fun ex =>
      ex.sanitizedUtterance = sanitizedText ∧
        ex.contexts.any fun c => includedContexts.contains c).map
    fun ex => { name := ex.intentName, context := ex.contexts.headD "global", confidence := 1 }

/-- The per-language exact-match index (this._exactIntentMatchers),
looked up by the structure's detected language. -/
def lookupMatcher (matchers : List (String × List TrainingExample)) (lang : String) :
    Option (List TrainingExample) :=
  (matchers.find? fun m => m.1 = lang).map fun m => m.2

/-- lodash uniq: deduplicate keeping first occurrences, given the
already-seen prefix. -/
def jsUniqAux : List String → List String → List String
  | [], _ => []
  | x :: rest, seen =>
    if seen.contains x then jsUniqAux rest seen else x :: jsUniqAux rest (x :: seen)

/-- lodash uniq: deduplicate a list keeping first occurrences. -/
def jsUniq (l : List String) : List String := jsUniqAux l []

/-- engine.ts lines 353-384 (_extractIntents).  If the language's exact
matcher exists and finds the sanitized text, the stage short-circuits:
selected intent and the ranked list are exactly that match and the
classifier is not consulted.  Otherwise the classifier's ranked
predictions are taken, the tie-break selection picks the intent, and
includedContexts is replaced by the deduplicated contexts of the
predictions. -/
def extractIntentsStage (matchers : List (String × List TrainingExample))
    (predict : List String → List String → List IntentPred)
    (selectIntent : List IntentPred → IntentPred)
    (ds : NLUStructure) : NLUStructure :=
  let exactIntent :=
    (lookupMatcher matchers ds.language).bind fun ts =>
      exactMatch ts ds.sanitizedText ds.includedContexts
  match exactIntent with
  | some i => { ds with intent := i, intents := [i] }
  | none =>
    let intents := predict ds.tokens ds.includedContexts
    let intent := selectIntent intents
    { ds with
        includedContexts := jsUniq (intents.map fun p => p.context),
        intents := intents,
        intent := intent }

/-! ## Slot extraction stage (engine.ts lines 397-415) -/

/-- The slice of an intent definition the slot stage passes to the
tagger. -/
structure IntentDefModel where
  name : String
  slotNames : List String
deriving DecidableEq, Repr

/-- engine.ts lines 397-415 (_extractSlots).  When the selected intent
is the reserved "none" intent the stage returns the structure untouched;
otherwise it fetches the intent definition and runs the sequence tagger
over lowercased text, language, definition, entities and tokens. -/
def extractSlotsStage (getIntentDef : String → IntentDefModel)
    (tagger : String → String → IntentDefModel → List Entity → List String → List Slot)
    (ds : NLUStructure) : NLUStructure :=
  if ds.intent.name = "none" then ds
  else
    let intentDef := getIntentDef ds.intent.name
    { ds with slots := tagger ds.lowerText ds.language intentDef ds.entities ds.tokens }

/-! ## Featurizer (featurizer2.ts lines 10-42)

getFeatPairs combines two per-token feature sets over a list of feature
names.  lodash get(feat, 'value', 'null') yields the string sentinel
'null' for an absent feature; get(feat, 'boost', 1) yields 1 for an
absent feature or an absent boost property; the template literal
value(left)|value(right) stringifies both sides. -/

/-- A CRF feature value: string, number or boolean
(featurizer2.ts line 10). -/
inductive FeatureValue where
  | str (s : String) : FeatureValue
  | num (n : Int) : FeatureValue
  | bool (b : Bool) : FeatureValue
deriving DecidableEq, Repr

/-- JS template-literal stringification of a feature value. -/
def FeatureValue.render : FeatureValue → String
  | .str s => s
  | .num n => toString n
  | .bool true => "true"
  | .bool false => "false"

/-- A named, typed, optionally boosted CRF feature
(featurizer2.ts lines 12-16). -/
structure CRFFeature where
  name : String
  value : FeatureValue
  boost : Option Int
deriving DecidableEq, Repr

/-- featurizer2.ts line 25: lodash get(feat, 'value', 'null'). -/
def valueOf : Option CRFFeature → FeatureValue
  | none => .str "null"
  | some f => f.value

/-- featurizer2.ts line 26: lodash get(feat, 'boost', 1). -/
def boostOf : Option CRFFeature → Int
  | none => 1
  | some f => f.boost.getD 1

/-- Array.prototype.find over a feature set by feature name. -/
def findFeat (feats : List CRFFeature) (name : String) : Option CRFFeature :=
  feats.find? fun f => f.name = name

/-- featurizer2.ts lines 24-42 (getFeatPairs): map each requested name
to the combined feature when either side has it (undefined otherwise),
then filter(identity) drops the undefined entries. -/
def getFeatPairs (feats0 feats1 : List CRFFeature) (featNames : List String) : List CRFFeature :=
  (featNames.map fun targetFeat =>
    let f0 := findFeat feats0 targetFeat
    let f1 := findFeat feats1 targetFeat
    if f0.isSome || f1.isSome then
      some { name := targetFeat,
             value := FeatureValue.str ((valueOf f0).render ++ "|" ++ (valueOf f1).render),
             boost := some (max (boostOf f0) (boostOf f1)) }
    else none).filterMap id

/-- The claim's own description of pairwise feature combination, stated
independently of the source: keep exactly the listed names present in at
least one side, and build for each the combined feature whose value is
left|right with the 'null' sentinel for an absent side and whose boost
is the maximum of the two sides' boosts, an absent or boost-less side
counting as 1. -/
def getFeatPairsSpec (feats0 feats1 : List CRFFeature) (featNames : List String) :
    List CRFFeature :=
  (featNames.filter fun n => (findFeat feats0 n).isSome || (findFeat feats1 n).isSome).map
    fun n =>
      { name := n,
        value := FeatureValue.str
          ((valueOf (findFeat feats0 n)).render ++ "|" ++ (valueOf (findFeat feats1 n)).render),
        boost := some (max (boostOf (findFeat feats0 n)) (boostOf (findFeat feats1 n))) }

/-! ## Concrete instances used by the closed evaluation theorems -/

/-- A one-example exact-match index for the "greet" intent. -/
def exTrainingSet : List TrainingExample :=
  [{ intentName := "greet", contexts := ["global"], sanitizedUtterance := "hello there" }]

/-- Per-language exact-match indexes holding exTrainingSet for English. -/
def exMatchers : List (String × List TrainingExample) := [("en", exTrainingSet)]

/-- The exact-match result for exTrainingSet's single example. -/
def exGreetIntent : IntentPred := { name := "greet", context := "global", confidence := 1 }

/-- A concrete pipeline structure after the sanitization stage. -/
def exDs : NLUStructure :=
  { rawText := "Hello there",
    lowerText := "hello there",
    sanitizedText := "hello there",
    detectedLanguage := some "en",
    language := "en",
    includedContexts := ["global"],
    tokens := ["hello", "there"],
    entities := [],
    intents := [],
    intent := noneIntent,
    slots := [] }

/-- A classifier returning no predictions. -/
def exPredictA : List String → List String → List IntentPred := fun _ _ => []

/-- A classifier ranking a different intent on top. -/
def exPredictB : List String → List String → List IntentPred := fun _ _ =>
  [{ name := "book-flight", context := "global", confidence := 99 / 100 }]

/-- A tie-break selection taking the top-ranked intent. -/
def exSelect : List IntentPred → IntentPred := fun l => l.headD noneIntent

/-- A tie-break selection always falling back to "none". -/
def exSelectNone : List IntentPred → IntentPred := fun _ => noneIntent

/-- exDs with the reserved "none" intent selected. -/
def exDsNone : NLUStructure := { exDs with intent := noneIntent }

/-- An intent-definition lookup. -/
def exIntentDefLookup : String → IntentDefModel := fun n => { name := n, slotNames := [] }

/-- A second, distinct intent-definition lookup. -/
def exIntentDefLookupB : String → IntentDefModel := fun n => { name := n, slotNames := ["city"] }

/-- A sequence tagger extracting nothing. -/
def exTaggerA : String → String → IntentDefModel → List Entity → List String → List Slot :=
  fun _ _ _ _ _ => []

/-- A sequence tagger extracting one slot. -/
def exTaggerB : String → String → IntentDefModel → List Entity → List String → List Slot :=
  fun _ _ _ _ _ => [{ name := "destination" }]

/-! ## Theorems -/

/-- Once a call has recorded _isSyncingTwice during an in-flight sync,
every further call during that sync leaves the flags (and the cycle
count) unchanged. -/
theorem iterateCalls_busyTwice :
    ∀ n c, iterateCalls n { isSyncing := true, isSyncingTwice := true, cycles := c } =
      { isSyncing := true, isSyncingTwice := true, cycles := c }
  | 0, _ => rfl
  | n + 1, c => iterateCalls_busyTwice n c

/-- C1: while a sync cycle is in flight, any number n ≥ 1 of additional
trainOrLoad calls leave the started-cycle count at 1 (each returns
without starting a cycle); when the in-flight cycle completes, exactly
one follow-up cycle starts (total 2) with no further pending request;
and when that follow-up completes the orchestrator is idle with exactly
2 cycles started in total — never n + 1 and never a backlog. -/
theorem concurrent_calls_coalesce (n : Nat) (h : 1 ≤ n) :
    (iterateCalls n inFlightState).cycles = 1 ∧
    syncComplete (iterateCalls n inFlightState) =
      { isSyncing := true, isSyncingTwice := false, cycles := 2 } ∧
    syncComplete (syncComplete (iterateCalls n inFlightState)) =
      { isSyncing := false, isSyncingTwice := false, cycles := 2 } := by
  obtain ⟨m, rfl⟩ : ∃ m, n = m + 1 := ⟨n - 1, by omega⟩
  have key : iterateCalls (m + 1) inFlightState =
      { isSyncing := true, isSyncingTwice := true, cycles := 1 } := by
    show iterateCalls m (trainOrLoadCall inFlightState) =
      { isSyncing := true, isSyncingTwice := true, cycles := 1 }
    exact iterateCalls_busyTwice m 1
  rw [key]
  exact ⟨rfl, rfl, rfl⟩

/-- Witness for concurrent_calls_coalesce at n = 3. -/
theorem concurrent_calls_coalesce_witness :
    1 ≤ 3 ∧
    (iterateCalls 3 inFlightState).cycles = 1 ∧
    syncComplete (syncComplete (iterateCalls 3 inFlightState)) =
      { isSyncing := false, isSyncingTwice := false, cycles := 2 } :=
  ⟨by decide, (concurrent_calls_coalesce 3 (by decide)).1,
    (concurrent_calls_coalesce 3 (by decide)).2.2⟩

set_option maxRecDepth 1000000 in
/-- C2 counterexample: exIntentA and exIntentB are the same intent
definition up to object key ordering (equal canonical forms), yet
computeModelHash gives them different digests — JSON.stringify
serializes fields in insertion order, so the digest is not independent
of object key ordering. -/
theorem computeModelHash_key_order_sensitive :
    canon exIntentA = canon exIntentB ∧
    computeModelHash [exIntentA] ≠ computeModelHash [exIntentB] := by
  constructor
  · simp +decide [exIntentA, exIntentB, canon, canonList, canonFields, sortFieldsByKey,
      insertFieldByKey]
  · decide

set_option maxRecDepth 1000000 in
/-- C2 amended: for a fixed list of intent definitions computeModelHash
returns the same digest on every call — the digest is a function of the
JSON serialization alone — and changing an utterance value changes the
digest on the exhibited input; but the digest is not independent of
object key ordering. -/
theorem computeModelHash_serialization_determined :
    (∀ v w : List JsValue,
        jsonStringify (JsValue.arr v) = jsonStringify (JsValue.arr w) →
        computeModelHash v = computeModelHash w) ∧
    computeModelHash [exIntentA] ≠ computeModelHash [exIntentC] := by
  constructor
  · intro v w h
    unfold computeModelHash
    rw [h]
  · decide

/-- Witness for computeModelHash_serialization_determined: two calls on
the same intent list yield equal digests. -/
theorem computeModelHash_serialization_determined_witness :
    computeModelHash [exIntentA] = computeModelHash [exIntentA] :=
  computeModelHash_serialization_determined.1 [exIntentA] [exIntentA] rfl

/-- C3: for every pipeline outcome (attempt function) extract returns a
well-formed record — its type rules out a propagated exception, and this
holds for all attempt functions, failing ones included — whose ms field
is always stamped with the elapsed time t1 - t0, which is non-negative
whenever the clock reading at the finally-block is not before the
reading at entry. -/
theorem extract_always_timed (attempt : Nat → Except String NLUStructure) (t0 t1 : Nat)
    (h : t0 ≤ t1) :
    (extract attempt t0 t1).ms = some ((t1 : Int) - (t0 : Int)) ∧
    ∀ m : Int, (extract attempt t0 t1).ms = some m → 0 ≤ m := by
  have hms : (extract attempt t0 t1).ms = some ((t1 : Int) - (t0 : Int)) := by
    unfold extract
    cases retryRun attempt 0 retryPolicy.max_tries <;> rfl
  refine ⟨hms, ?_⟩
  intro m hm
  rw [hms] at hm
  injection hm with hm
  omega

/-- Witness for extract_always_timed: all three attempts fail, yet the
result carries ms = 3 ≥ 0. -/
theorem extract_always_timed_witness :
    (extract (fun _ => Except.error "entity service down") 2 5).ms =
      some ((5 : Int) - (2 : Int)) ∧
    ∀ m : Int, (extract (fun _ => Except.error "entity service down") 2 5).ms = some m →
      0 ≤ m :=
  extract_always_timed (fun _ => Except.error "entity service down") 2 5 (by decide)

/-- C4: when the exact-match index of the structure's language finds the
sanitized text within the requested contexts, _extractIntents selects
that intent, sets the ranked list to exactly that one intent, and never
consults the statistical classifier or the tie-break selection — the
stage's output is identical for any two classifiers and selections. -/
theorem exact_match_short_circuits
    (matchers : List (String × List TrainingExample))
    (predict predict2 : List String → List String → List IntentPred)
    (selectIntent selectIntent2 : List IntentPred → IntentPred)
    (ds : NLUStructure) (ts : List TrainingExample) (X : IntentPred)
    (hm : lookupMatcher matchers ds.language = some ts)
    (hx : exactMatch ts ds.sanitizedText ds.includedContexts = some X) :
    (extractIntentsStage matchers predict selectIntent ds).intent = X ∧
    (extractIntentsStage matchers predict selectIntent ds).intents = [X] ∧
    extractIntentsStage matchers predict selectIntent ds =
      extractIntentsStage matchers predict2 selectIntent2 ds := by
  unfold extractIntentsStage
  rw [hm]
  simp only [Option.some_bind]
  rw [hx]
  exact ⟨rfl, rfl, rfl⟩

/-- Witness for exact_match_short_circuits: "hello there" is a stored
utterance of "greet", and the stage's result ignores which classifier is
plugged in. -/
theorem exact_match_short_circuits_witness :
    (extractIntentsStage exMatchers exPredictA exSelect exDs).intent = exGreetIntent ∧
    (extractIntentsStage exMatchers exPredictA exSelect exDs).intents = [exGreetIntent] ∧
    extractIntentsStage exMatchers exPredictA exSelect exDs =
      extractIntentsStage exMatchers exPredictB exSelectNone exDs :=
  exact_match_short_circuits exMatchers exPredictA exPredictB exSelect exSelectNone exDs
    exTrainingSet exGreetIntent (by decide) (by decide)

/-- C5: when the selected intent is the reserved "none" intent,
_extractSlots returns the structure unchanged — slots stay as they were
(empty if they were empty) — and neither the intent-definition lookup
nor the sequence tagger can influence the result: the stage's output is
identical for any two lookups and taggers. -/
theorem none_intent_skips_slots
    (getIntentDef getIntentDef2 : String → IntentDefModel)
    (tagger tagger2 : String → String → IntentDefModel → List Entity → List String → List Slot)
    (ds : NLUStructure) (h : ds.intent.name = "none") :
    extractSlotsStage getIntentDef tagger ds = ds ∧
    (ds.slots = [] → (extractSlotsStage getIntentDef tagger ds).slots = []) ∧
    extractSlotsStage getIntentDef tagger ds = extractSlotsStage getIntentDef2 tagger2 ds := by
  have e1 : extractSlotsStage getIntentDef tagger ds = ds := by
    unfold extractSlotsStage
    rw [if_pos h]
  have e2 : extractSlotsStage getIntentDef2 tagger2 ds = ds := by
    unfold extractSlotsStage
    rw [if_pos h]
  refine ⟨e1, ?_, e1.trans e2.symm⟩
  intro hs
  rw [e1, hs]

/-- Witness for none_intent_skips_slots on a concrete structure with the
"none" intent, two distinct lookups and two distinct taggers. -/
theorem none_intent_skips_slots_witness :
    extractSlotsStage exIntentDefLookup exTaggerA exDsNone = exDsNone ∧
    (exDsNone.slots = [] → (extractSlotsStage exIntentDefLookup exTaggerA exDsNone).slots = []) ∧
    extractSlotsStage exIntentDefLookup exTaggerA exDsNone =
      extractSlotsStage exIntentDefLookupB exTaggerB exDsNone :=
  none_intent_skips_slots exIntentDefLookup exIntentDefLookupB exTaggerA exTaggerB exDsNone rfl

/-- C6 (bug evaluation): with one configured language whose model does
not exist in the store and forceRetrain = false, the modelsExists check
of engine.ts lines 141-143 still yields true — every(identity) runs over
an array of truthy Promise objects, the awaited Booleans are discarded —
so the cycle attempts the load although the store holds no artifacts;
the actual all-languages existence check is false.  The load failure
then falls through to training and reloading. -/
theorem modelsExists_check_ignores_store :
    modelsExistsCheck ["en"] (fun _ => false) = true ∧
    (["en"].all fun _ => false) = false ∧
    (trainOrLoadCycleTrace ["en"] false (fun _ => false) false).loadAttempted = true ∧
    (trainOrLoadCycleTrace ["en"] false (fun _ => false) false).trained = true ∧
    (trainOrLoadCycleTrace ["en"] false (fun _ => false) false).reloaded = true := by
  decide

/-- The language field detectLangStage produces, as a case analysis on
the identifier answer. -/
theorem detectLangStage_language
    (languages : List String) (defaultLanguage : String)
    (identify : String → Option String) (ds : NLUStructure) :
    (detectLangStage languages defaultLanguage identify ds).language =
      (match identify ds.rawText with
       | none => defaultLanguage
       | some l => if l = "" ∨ l = "n/a" ∨ ¬ languages.contains l then defaultLanguage
                   else l) := by
  unfold detectLangStage
  cases identify ds.rawText with
  | none => rfl
  | some l =>
    dsimp only
    by_cases hc : l = "" ∨ l = "n/a" ∨ ¬ languages.contains l
    · rw [if_pos hc, if_pos hc]
    · rw [if_neg hc, if_neg hc]

/-- C7: after the language-detection stage, the structure language is
always a member of the configured language set provided the configured
default belongs to it; whenever detection yields an absent value, the
empty string, the sentinel "n/a", or a language outside the configured
set, the default is substituted; and the stage is a total function — the
substitution is never surfaced as an error. -/
theorem detect_lang_always_supported
    (languages : List String) (defaultLanguage : String)
    (identify : String → Option String) (ds : NLUStructure)
    (h : defaultLanguage ∈ languages) :
    (detectLangStage languages defaultLanguage identify ds).language ∈ languages ∧
    (identify ds.rawText = none →
      (detectLangStage languages defaultLanguage identify ds).language = defaultLanguage) ∧
    ∀ l, identify ds.rawText = some l → (l = "" ∨ l = "n/a" ∨ l ∉ languages) →
      (detectLangStage languages defaultLanguage identify ds).language = defaultLanguage := by
  have hl := detectLangStage_language languages defaultLanguage identify ds
  cases hid : identify ds.rawText with
  | none =>
    rw [hid] at hl
    dsimp only at hl
    exact ⟨by rw [hl]; exact h, fun _ => hl, fun l hl2 => Option.noConfusion hl2⟩
  | some l =>
    rw [hid] at hl
    dsimp only at hl
    by_cases hc : l = "" ∨ l = "n/a" ∨ ¬ languages.contains l
    · rw [if_pos hc] at hl
      refine ⟨by rw [hl]; exact h, fun hn => Option.noConfusion hn, ?_⟩
      intro l2 _ _
      exact hl
    · rw [if_neg hc] at hl
      push_neg at hc
      refine ⟨?_, fun hn => Option.noConfusion hn, ?_⟩
      · rw [hl]
        simpa using hc.2.2
      · intro l2 hl2 hbad
        injection hl2 with hl2
        subst hl2
        rcases hbad with hbad | hbad | hbad
        · exact absurd hbad hc.1
        · exact absurd hbad hc.2.1
        · exact absurd (by simpa using hc.2.2) hbad

/-- Witness for detect_lang_always_supported: detection answers an
unsupported "de", and the stage substitutes the default "en". -/
theorem detect_lang_always_supported_witness :
    (detectLangStage ["en", "fr"] "en" (fun _ => some "de") exDs).language ∈ ["en", "fr"] ∧
    ((fun (_ : String) => some "de") exDs.rawText = none →
      (detectLangStage ["en", "fr"] "en" (fun _ => some "de") exDs).language = "en") ∧
    ∀ l, (fun (_ : String) => some "de") exDs.rawText = some l →
      (l = "" ∨ l = "n/a" ∨ l ∉ ["en", "fr"]) →
      (detectLangStage ["en", "fr"] "en" (fun _ => some "de") exDs).language = "en" :=
  detect_lang_always_supported ["en", "fr"] "en" (fun _ => some "de") exDs (by decide)

/-- C8 counterexample: when every retry attempt fails, the returned
record is exactly the initial bare record plus the ms stamp — errored
is true and no field populated by the pipeline stages is present (data
is none): the best-effort partial extraction context is discarded, not
returned. -/
theorem extract_failure_no_partial_context :
    extract (fun _ => Except.error "tokenizer unavailable") 0 7 =
      { errored := true, ms := some 7, data := none } := by
  decide

/-- C8 amended: when all bounded-retry attempts fail, the result has
errored = true and carries the elapsed time, but no fields from the
pipeline stages: res was initialized to the bare record with errored
true and is returned with only ms added, the partially populated
context of the failed runs being discarded. -/
theorem extract_failure_result_shape
    (attempt : Nat → Except String NLUStructure) (t0 t1 : Nat) (e : String)
    (h : retryRun attempt 0 retryPolicy.max_tries = Except.error e) :
    extract attempt t0 t1 =
      { errored := true, ms := some ((t1 : Int) - (t0 : Int)), data := none } := by
  unfold extract
  rw [h]

/-- Witness for extract_failure_result_shape with a concrete
always-failing pipeline. -/
theorem extract_failure_result_shape_witness :
    extract (fun _ => Except.error "stage failed") 1 9 =
      { errored := true, ms := some ((9 : Int) - (1 : Int)), data := none } :=
  extract_failure_result_shape (fun _ => Except.error "stage failed") 1 9 "stage failed" rfl

/-- C9 counterexample: an invocation of trainOrLoad that arrives while a
sync is in flight hits the bare return at engine.ts line 132 and
produces undefined (none), not the current model hash — busyState holds
the hash "a1b2", but the call returns none. -/
theorem trainOrLoad_in_flight_returns_undefined :
    (trainOrLoadRun busyState "c3d4" true true).1 = none ∧
    busyState.currentModelHash = some "a1b2" := by
  decide

/-- C9 amended: an invocation of trainOrLoad that actually runs a sync
cycle (no sync in flight, no pending rerun recorded) returns the newly
computed hash when its cycle succeeds and the last-known-good
_currentModelHash when its cycle fails (undefined if no sync ever
succeeded); an invocation arriving while a sync is in flight instead
returns undefined. -/
theorem trainOrLoad_returns_hash_when_idle
    (st : EngineState) (hash : String) (syncOk syncOk2 : Bool)
    (h1 : st.isSyncing = false) (h2 : st.isSyncingTwice = false) :
    (trainOrLoadRun st hash syncOk syncOk2).1 =
      (if syncOk then some hash else st.currentModelHash) := by
  unfold trainOrLoadRun
  rw [h1]
  cases syncOk <;> simp [h2]

/-- Witness for trainOrLoad_returns_hash_when_idle: from the fresh idle
state, a successful cycle returns the new hash. -/
theorem trainOrLoad_returns_hash_when_idle_witness :
    (trainOrLoadRun idleState "e5f6" true false).1 =
      (if true then some "e5f6" else idleState.currentModelHash) :=
  trainOrLoad_returns_hash_when_idle idleState "e5f6" true false rfl rfl

/-- C10: getFeatPairs computes exactly the claim's description — one
combined feature per listed name present in at least one of the two
feature sets (names absent from both produce none), whose value is the
left value, a | separator and the right value with the sentinel null
for an absent side, and whose boost is the maximum of the two sides'
boosts with an absent or boost-less side counting as 1. -/
theorem getFeatPairs_matches_description
    (feats0 feats1 : List CRFFeature) (featNames : List String) :
    getFeatPairs feats0 feats1 featNames = getFeatPairsSpec feats0 feats1 featNames := by
  induction featNames with
  | nil => rfl
  | cons n rest ih =>
    unfold getFeatPairs getFeatPairsSpec
    unfold getFeatPairs getFeatPairsSpec at ih
    simp only [List.map_cons, List.filterMap_cons, List.filter_cons]
    by_cases hc : ((findFeat feats0 n).isSome || (findFeat feats1 n).isSome) = true
    · simp only [hc, if_true, List.map_cons]
      rw [ih]
      rfl
    · simp only [hc, if_false, Bool.false_eq_true]
      rw [ih]
      rfl
